import Mathlib

/-
Verification of the configuration subsystem of the `super` analyzer
(`src/config.rs`): the data model (Criticity, Permission, PermissionConfig,
Config), the per-key TOML merge (`load_from_file`), the layered resolution
(`Config::new`), defaults (`local_default`, `Default`), and the readiness
checks (`check`, `get_errors`).  Filesystem existence is modelled as an
explicit predicate `String → Bool` passed to the functions that probe it.
-/

namespace Super

/-- Modelled from the spec: `Criticity` lives in the crate root, not under
`src/`.  The spec gives an ordered severity enumeration
Warning < Low < Medium < High < Critical with exact lowercase keyword
parsing. -/
inductive Criticity
  | warning
  | low
  | medium
  | high
  | critical
deriving DecidableEq, Repr

/-- Numeric rank realising the spec ordering Warning < Low < Medium < High <
Critical. -/
def Criticity.toNat : Criticity → Nat
  | .warning => 0
  | .low => 1
  | .medium => 2
  | .high => 3
  | .critical => 4

/-- Modelled from the spec: parsing accepts exactly the five lowercase
keywords; any other input fails. -/
def Criticity.from_str (s : String) : Option Criticity :=
  if s = "warning" then some .warning
  else if s = "low" then some .low
  else if s = "medium" then some .medium
  else if s = "high" then some .high
  else if s = "critical" then some .critical
  else none

/-- Modelled from the spec: `Permission` is an external, closed enumeration of
known platform permission identifiers (from `static_analysis::manifest`, not
under `src/`), with parse-by-name, equality and ordering.  We model a small
catalogue containing the identifier used by the repository tests
(`android.permission.INTERNET`) plus further members so that ordering is
non-trivial; parsing fails for every name outside the catalogue. -/
inductive Permission
  | androidPermissionInternet
  | androidPermissionCamera
  | androidPermissionReadContacts
deriving DecidableEq, Repr

/-- Rank giving the (derived) total order on the permission catalogue. -/
def Permission.toNat : Permission → Nat
  | .androidPermissionInternet => 0
  | .androidPermissionCamera => 1
  | .androidPermissionReadContacts => 2

/-- Modelled from the spec: name → identifier parsing over the closed
catalogue; unrecognized names fail. -/
def Permission.from_str (s : String) : Option Permission :=
  if s = "android.permission.INTERNET" then some .androidPermissionInternet
  else if s = "android.permission.CAMERA" then some .androidPermissionCamera
  else if s = "android.permission.READ_CONTACTS" then some .androidPermissionReadContacts
  else none

/-- `PermissionConfig` (src/config.rs lines 591-597): one permission rule. -/
structure PermissionConfig where
  permission : Permission
  criticity : Criticity
  label : String
  description : String
deriving DecidableEq, Repr

/-- The `PartialEq` impl (src/config.rs lines 599-603): equality is decided
solely by the `permission` field. -/
def PermissionConfig.eq (a b : PermissionConfig) : Bool :=
  a.permission == b.permission

/-- The manual `PartialOrd` impl (src/config.rs lines 605-615): it compares
solely the `permission` field.  `BTreeSet`, however, never consults
`PartialOrd`: it navigates by `Ord::cmp`, and `Ord` is derived
(`#[derive(Debug, Ord, Eq)]`, line 591), which compares all four fields —
see `PermissionConfig.cmp`. -/
def PermissionConfig.partial_cmp (a b : PermissionConfig) : Option Ordering :=
  if a.permission.toNat < b.permission.toNat then some .lt
  else if b.permission.toNat < a.permission.toNat then some .gt
  else some .eq

/-- Three-way comparison of naturals. -/
def cmpNat (a b : Nat) : Ordering :=
  if a < b then .lt else if b < a then .gt else .eq

/-- Lexicographic comparison of character sequences by code point.  UTF-8
byte order coincides with code-point order, so this is Rust's derived
`Ord` on `String`. -/
def cmpChars : List Char → List Char → Ordering
  | [], [] => .eq
  | [], _ :: _ => .lt
  | _ :: _, [] => .gt
  | x :: xs, y :: ys =>
    match cmpNat x.toNat y.toNat with
    | .eq => cmpChars xs ys
    | o => o

/-- Rust `String` ordering (byte-lexicographic). -/
def strCmp (a b : String) : Ordering :=
  cmpChars a.toList b.toList

/-- The derived `Ord` impl of `#[derive(Ord)]` (src/config.rs line 591):
lexicographic over the fields in declaration order — `permission`,
`criticity`, `label`, `description`.  This, not the manual permission-only
`PartialOrd`, is what `BTreeSet` orders and deduplicates by. -/
def PermissionConfig.cmp (a b : PermissionConfig) : Ordering :=
  match cmpNat a.permission.toNat b.permission.toNat with
  | .eq =>
    match cmpNat a.criticity.toNat b.criticity.toNat with
    | .eq =>
      match strCmp a.label b.label with
      | .eq => strCmp a.description b.description
      | o => o
    | o => o
  | o => o

/-- `BTreeSet<PermissionConfig>::insert` on the strictly-ascending (by
`PermissionConfig.cmp`, the derived full-field `Ord`) list representation of
the set: the element is placed at its ordered position, and the insert is a
no-op only when a rule equal in all four fields is already present.  Two
rules sharing a `permission` but differing in criticity, label or
description are therefore both retained. -/
def insertPC : List PermissionConfig → PermissionConfig → List PermissionConfig
  | [], x => [x]
  | y :: ys, x =>
    match PermissionConfig.cmp x y with
    | .lt => x :: y :: ys
    | .eq => y :: ys
    | .gt => y :: insertPC ys x

/-- TOML values (`toml::Value`, version 0.2): the shapes the loader matches
on.  Float carries no payload here because no code path inspects one. -/
inductive TValue
  | str (s : String)
  | int (n : Int)
  | boolean (b : Bool)
  | float
  | datetime (s : String)
  | arr (elems : List TValue)
  | table (pairs : List (String × TValue))

/-- `Value::as_table`. -/
def TValue.as_table : TValue → Option (List (String × TValue))
  | .table t => some t
  | _ => none

/-- `BTreeMap::get` on the association-list representation of a TOML table
(keys are unique in a parsed TOML table). -/
def tableGet (t : List (String × TValue)) (k : String) : Option TValue :=
  match t with
  | [] => none
  | (k2, v) :: rest => if k2 = k then some v else tableGet rest k

/-- Splits a character list on a separator (used to model path components). -/
def splitOnChar (sep : Char) : List Char → List (List Char)
  | [] => [[]]
  | c :: rest =>
    let r := splitOnChar sep rest
    if c = sep then [] :: r
    else
      match r with
      | [] => [[c]]
      | g :: gs => (c :: g) :: gs

/-- Characters after the last dot of a name, if any dot is present. -/
def extAux : List Char → Option (List Char)
  | [] => none
  | c :: rest =>
    match extAux rest with
    | some e => some e
    | none => if c = '.' then some rest else none

/-- `Path::extension` of Rust: the part of the final path component after its
last dot, provided the component is not `..` and the last dot is not its
first character. -/
def extension (s : String) : Option String :=
  match ((splitOnChar '/' s.toList).filter (fun c => !c.isEmpty)).getLast? with
  | none => none
  | some name =>
    if name = ['.', '.'] then none
    else
      match name with
      | [] => none
      | _ :: rest =>
        match extAux rest with
        | none => none
        | some e => some (String.mk e)

/-- Whether a path string is absolute (begins with a separator). -/
def isAbsolute (s : String) : Bool :=
  match s.toList with
  | '/' :: _ => true
  | _ => false

/-- `Path::join`: appends a component, except that joining an absolute path
replaces the receiver. -/
def pathJoin (p s : String) : String :=
  if isAbsolute s then s
  else if p = "" then s
  else p ++ "/" ++ s

/-- One constructor per `print_warning` call site of `load_from_file`
(src/config.rs lines 274-530). -/
inductive Warn
  | threads
  | downloads_folder
  | dist_folder
  | results_folder
  | apktool_not_string
  | apktool_not_jar
  | dex2jar_folder
  | jd_cmd_not_string
  | jd_cmd_not_jar
  | templates_folder
  | template
  | rules_json_not_string
  | rules_json_not_json
  | perm_format
  | criticity_keyword
  | unknown_perm_format
  | unknown_permission_name (name : String)
  | perms_not_array
  | unknown_option (key : String)
deriving DecidableEq, Repr

/-- The `Config` struct (src/config.rs lines 21-42).  `open` is a Lean
keyword, so that field is called `openFlag`; `threads` is the `u8` field as a
natural number. -/
structure Config where
  app_package : String
  verbose : Bool
  quiet : Bool
  force : Bool
  bench : Bool
  openFlag : Bool
  threads : Nat
  downloads_folder : String
  dist_folder : String
  results_folder : String
  apktool_file : String
  dex2jar_folder : String
  jd_cmd_file : String
  rules_json : String
  templates_folder : String
  template : String
  unknown_permission : Criticity × String
  permissions : List PermissionConfig
  loaded_files : List String
deriving DecidableEq, Repr

/-- `Config::get_apk_file` (src/config.rs lines 154-156). -/
def Config.get_apk_file (c : Config) : String :=
  pathJoin c.downloads_folder (c.app_package ++ ".apk")

/-- `Config::get_template_path` (src/config.rs lines 230-232). -/
def Config.get_template_path (c : Config) : String :=
  pathJoin c.templates_folder c.template

/-- `Config::check` (src/config.rs lines 97-102), over an explicit
file-existence predicate. -/
def Config.check (fs : String → Bool) (c : Config) : Bool :=
  fs c.downloads_folder && fs c.get_apk_file &&
  fs c.apktool_file && fs c.dex2jar_folder &&
  fs c.jd_cmd_file && fs c.get_template_path &&
  fs c.rules_json

/-- `Config::get_errors` (src/config.rs lines 104-140): the pushes of the
source, in source order, as list concatenation. -/
def Config.get_errors (fs : String → Bool) (c : Config) : List String :=
  (if fs c.downloads_folder then []
   else ["the downloads folder `" ++ c.downloads_folder ++ "` does not exist"]) ++
  (if fs c.get_apk_file then []
   else ["the APK file `" ++ c.get_apk_file ++ "` does not exist"]) ++
  (if fs c.apktool_file then []
   else ["the APKTool JAR file `" ++ c.apktool_file ++ "` does not exist"]) ++
  (if fs c.dex2jar_folder then []
   else ["the Dex2Jar folder `" ++ c.dex2jar_folder ++ "` does not exist"]) ++
  (if fs c.jd_cmd_file then []
   else ["the jd-cmd file `" ++ c.jd_cmd_file ++ "` does not exist"]) ++
  (if fs c.templates_folder then []
   else ["the templates folder `" ++ c.templates_folder ++ "` does not exist"]) ++
  (if fs c.get_template_path then []
   else ["the template `" ++ c.template ++ "` does not exist in `" ++
         c.templates_folder ++ "`"]) ++
  (if fs c.rules_json then []
   else ["the `" ++ c.rules_json ++ "` rule file does not exist"])

/-- `Config::set_app_package` (src/config.rs lines 150-152). -/
def Config.set_app_package (c : Config) (s : String) : Config :=
  { c with app_package := s }

/-- `Config::set_verbose` (src/config.rs lines 162-164). -/
def Config.set_verbose (c : Config) (b : Bool) : Config :=
  { c with verbose := b }

/-- `Config::set_quiet` (src/config.rs lines 170-172). -/
def Config.set_quiet (c : Config) (b : Bool) : Config :=
  { c with quiet := b }

/-- `Config::set_force` (src/config.rs lines 178-180). -/
def Config.set_force (c : Config) (b : Bool) : Config :=
  { c with force := b }

/-- `Config::set_bench` (src/config.rs lines 186-188). -/
def Config.set_bench (c : Config) (b : Bool) : Config :=
  { c with bench := b }

/-- `Config::set_open` (src/config.rs lines 194-196). -/
def Config.set_open (c : Config) (b : Bool) : Config :=
  { c with openFlag := b }

/-- `Config::set_threads` (src/config.rs lines 202-204): the argument is a
`u8`, so call sites only ever supply values up to 255. -/
def Config.set_threads (c : Config) (n : Nat) : Config :=
  { c with threads := n }

/-- `Config::local_default` (src/config.rs lines 535-560). -/
def Config.local_default : Config :=
  { app_package := ""
    verbose := false
    quiet := false
    force := false
    bench := false
    openFlag := false
    threads := 2
    downloads_folder := "downloads"
    dist_folder := "dist"
    results_folder := "results"
    apktool_file := pathJoin "vendor" "apktool_2.2.0.jar"
    dex2jar_folder := pathJoin "vendor" "dex2jar-2.0"
    jd_cmd_file := pathJoin "vendor" "jd-cmd.jar"
    templates_folder := "templates"
    template := "super"
    rules_json := "rules.json"
    unknown_permission := (Criticity.low,
      "Even if the application can create its own permissions, it\x27s discouraged, since it can lead to missunderstanding between developers.")
    permissions := []
    loaded_files := [] }

/-- The filesystem facts probed by `Default::default` on the unix variant
(src/config.rs lines 563-583). -/
structure Probe where
  etc_rules : Bool
  share_dir : Bool
  macos : Bool
deriving DecidableEq

/-- The platform-dependent shared install root probed by `Default::default`. -/
def sharePath (p : Probe) : String :=
  if p.macos then "/usr/local/super" else "/usr/share/super"

/-- `Default for Config`, unix variant (src/config.rs lines 564-583):
`local_default` with the system-wide rules file and shared install directory
substituted when the corresponding paths exist. -/
def Config.default_unix (p : Probe) : Config :=
  let c := Config.local_default
  let c := if p.etc_rules then { c with rules_json := "/etc/super/rules.json" } else c
  if p.share_dir then
    { c with
      apktool_file := pathJoin (sharePath p) "vendor/apktool_2.2.0.jar"
      dex2jar_folder := pathJoin (sharePath p) "vendor/dex2jar-2.0"
      jd_cmd_file := pathJoin (sharePath p) "vendor/jd-cmd.jar"
      templates_folder := pathJoin (sharePath p) "templates" }
  else c

/-- One iteration of the `for cfg in p` loop over the `permissions` array
(src/config.rs lines 420-520).  `Except.ok` is a completed iteration with the
updated config (`continue`); `Except.error` is a `print_warning` followed by
`break` — the config is never modified in an iteration that breaks. -/
def permStep (c : Config) (v : TValue) : Except Warn Config :=
  match v.as_table with
  | none => .error .perm_format
  | some cfg =>
    match tableGet cfg "name" with
    | some (.str name) =>
      match tableGet cfg "criticity" with
      | some (.str cs) =>
        match Criticity.from_str cs with
        | some criticity =>
          match tableGet cfg "description" with
          | some (.str description) =>
            if name = "unknown" then
              if cfg.length ≠ 3 then .error .unknown_perm_format
              else .ok { c with unknown_permission := (criticity, description) }
            else
              if cfg.length ≠ 4 then .error .perm_format
              else
                match Permission.from_str name with
                | some permission =>
                  match tableGet cfg "label" with
                  | some (.str label) =>
                    .ok { c with permissions := insertPC c.permissions (PermissionConfig.mk permission criticity label description) }
                  | _ => .error .perm_format
                | none => .error (.unknown_permission_name name)
          | _ => .error .perm_format
        | none => .error .criticity_keyword
      | _ => .error .perm_format
    | _ => .error .perm_format

/-- The whole `for cfg in p` loop: a `break` stops the scan of the remaining
elements, emitting exactly the one warning of the breaking iteration. -/
def processPerms : Config → List TValue → Config × List Warn
  | c, [] => (c, [])
  | c, v :: rest =>
    match permStep c v with
    | .error w => (c, [w])
    | .ok c2 => processPerms c2 rest

/-- The `"threads"` arm (src/config.rs lines 276-289): the value must match
`Value::Integer(1...MAX_THREADS)`; otherwise warn and keep the prior value. -/
def armThreads (c : Config) (v : TValue) : Config × List Warn :=
  match v with
  | .int n => if 1 ≤ n ∧ n ≤ 255 then ({ c with threads := n.toNat }, []) else (c, [.threads])
  | _ => (c, [.threads])

/-- The `"downloads_folder"` arm (src/config.rs lines 290-299). -/
def armDownloadsFolder (c : Config) (v : TValue) : Config × List Warn :=
  match v with
  | .str s => ({ c with downloads_folder := s }, [])
  | _ => (c, [.downloads_folder])

/-- The `"dist_folder"` arm (src/config.rs lines 300-309). -/
def armDistFolder (c : Config) (v : TValue) : Config × List Warn :=
  match v with
  | .str s => ({ c with dist_folder := s }, [])
  | _ => (c, [.dist_folder])

/-- The `"results_folder"` arm (src/config.rs lines 310-319). -/
def armResultsFolder (c : Config) (v : TValue) : Config × List Warn :=
  match v with
  | .str s => ({ c with results_folder := s }, [])
  | _ => (c, [.results_folder])

/-- The `"apktool_file"` arm (src/config.rs lines 320-338): the string must
have a `.jar` extension. -/
def armApktoolFile (c : Config) (v : TValue) : Config × List Warn :=
  match v with
  | .str s =>
    if extension s = some "jar" then ({ c with apktool_file := s }, [])
    else (c, [.apktool_not_jar])
  | _ => (c, [.apktool_not_string])

/-- The `"dex2jar_folder"` arm (src/config.rs lines 339-348). -/
def armDex2jarFolder (c : Config) (v : TValue) : Config × List Warn :=
  match v with
  | .str s => ({ c with dex2jar_folder := s }, [])
  | _ => (c, [.dex2jar_folder])

/-- The `"jd_cmd_file"` arm (src/config.rs lines 349-367): the string must
have a `.jar` extension. -/
def armJdCmdFile (c : Config) (v : TValue) : Config × List Warn :=
  match v with
  | .str s =>
    if extension s = some "jar" then ({ c with jd_cmd_file := s }, [])
    else (c, [.jd_cmd_not_jar])
  | _ => (c, [.jd_cmd_not_string])

/-- The `"templates_folder"` arm (src/config.rs lines 368-377). -/
def armTemplatesFolder (c : Config) (v : TValue) : Config × List Warn :=
  match v with
  | .str s => ({ c with templates_folder := s }, [])
  | _ => (c, [.templates_folder])

/-- The `"template"` arm (src/config.rs lines 378-387). -/
def armTemplate (c : Config) (v : TValue) : Config × List Warn :=
  match v with
  | .str s => ({ c with template := s }, [])
  | _ => (c, [.template])

/-- The `"rules_json"` arm (src/config.rs lines 388-406): the string must
have a `.json` extension. -/
def armRulesJson (c : Config) (v : TValue) : Config × List Warn :=
  match v with
  | .str s =>
    if extension s = some "json" then ({ c with rules_json := s }, [])
    else (c, [.rules_json_not_json])
  | _ => (c, [.rules_json_not_string])

/-- The `"permissions"` arm (src/config.rs lines 407-528). -/
def armPermissions (c : Config) (v : TValue) : Config × List Warn :=
  match v with
  | .arr p => processPerms c p
  | _ => (c, [.perms_not_array])

/-- The `match key.as_str()` dispatch of `load_from_file`
(src/config.rs lines 274-530), in source arm order. -/
def processEntry (c : Config) (key : String) (v : TValue) : Config × List Warn :=
  if key = "threads" then armThreads c v
  else if key = "downloads_folder" then armDownloadsFolder c v
  else if key = "dist_folder" then armDistFolder c v
  else if key = "results_folder" then armResultsFolder c v
  else if key = "apktool_file" then armApktoolFile c v
  else if key = "dex2jar_folder" then armDex2jarFolder c v
  else if key = "jd_cmd_file" then armJdCmdFile c v
  else if key = "templates_folder" then armTemplatesFolder c v
  else if key = "template" then armTemplate c v
  else if key = "rules_json" then armRulesJson c v
  else if key = "permissions" then armPermissions c v
  else (c, [.unknown_option key])

/-- The `for (key, value) in toml` scan of `load_from_file`: the document is
the iteration sequence of the parsed top-level table. -/
def loadDoc : Config → List (String × TValue) → Config × List Warn
  | c, [] => (c, [])
  | c, kv :: rest =>
    let r1 := processEntry c kv.1 kv.2
    let r2 := loadDoc r1.1 rest
    (r2.1, r1.2 ++ r2.2)

/-- Modelled from the spec: the `Error` enum with its process exit codes
lives in the crate root, not under `src/`; the spec reserves a distinct,
stable exit code for a configuration parse error. -/
inductive ExitCode
  | parse_error
deriving DecidableEq, Repr

/-- Outcome of `Config::load_from_file` (src/config.rs lines 258-533): either
the process terminated (`exit(Error::ParseError.into())`) with the config in
the state it had at that point, or the scan completed, with its warnings. -/
inductive LoadResult
  | exited (code : ExitCode) (c : Config)
  | completed (c : Config) (warnings : List Warn)
deriving DecidableEq, Repr

/-- `Config::load_from_file` at the document level: the file contents are
given as the parse outcome (`none` = `parser.parse()` returned `None`). -/
def Config.load_from_file (c : Config) (parsed : Option (List (String × TValue))) :
    LoadResult :=
  match parsed with
  | none => .exited .parse_error c
  | some doc =>
    let r := loadDoc c doc
    .completed r.1 r.2

/-- Environment seen by `Config::new` on the unix variant: the `Default`
probes, plus existence and parse outcome of the two candidate files
`/etc/config.toml` and `./config.toml`. -/
structure Env where
  probe : Probe
  etc_exists : Bool
  etc_parsed : Option (List (String × TValue))
  local_exists : Bool
  local_parsed : Option (List (String × TValue))

/-- Outcome of `Config::new`: either the process exited during a load, or the
resolved config was returned. -/
inductive NewResult
  | exited (code : ExitCode)
  | ok (c : Config) (warnings : List Warn)
deriving DecidableEq, Repr

/-- One candidate-file block of `Config::new`: when the path exists, load it
(which may terminate the process on a parse error) and then push the path
onto `loaded_files`; when it does not exist, do nothing. -/
def loadStage (present : Bool) (parsed : Option (List (String × TValue)))
    (path : String) (c : Config) : Sum ExitCode (Config × List Warn) :=
  if present then
    match Config.load_from_file c parsed with
    | .exited code _ => .inl code
    | .completed c1 w1 =>
      .inr ({ c1 with loaded_files := c1.loaded_files ++ [path] }, w1)
  else .inr (c, [])

/-- The state of `Config::new` before any file is read: `Default::default()`
with the caller-supplied package name and the five invocation flags
injected (src/config.rs lines 53-59). -/
def Config.base (probe : Probe) (app_package : String)
    (verbose quiet force bench openArg : Bool) : Config :=
  { Config.default_unix probe with
    app_package := app_package
    verbose := verbose
    quiet := quiet
    force := force
    bench := bench
    openFlag := openArg }

/-- `Config::new`, unix variant (src/config.rs lines 45-71): defaults, flag
injection, then `/etc/config.toml` and `./config.toml` in that order, each
loaded when it exists and its path pushed onto `loaded_files` afterwards. -/
def Config.new (env : Env) (app_package : String)
    (verbose quiet force bench openArg : Bool) : NewResult :=
  match loadStage env.etc_exists env.etc_parsed "/etc/config.toml"
      (Config.base env.probe app_package verbose quiet force bench openArg) with
  | .inl code => .exited code
  | .inr (c1, w1) =>
    match loadStage env.local_exists env.local_parsed "./config.toml" c1 with
    | .inl code => .exited code
    | .inr (c2, w2) => .ok c2 (w1 ++ w2)

/-- Configs reachable through the public interface: construction via `new`
(unix) or `Default`/`local_default`, any sequence of document loads, and the
public setters.  `set_threads` takes a `u8`, so its argument is at most
255. -/
inductive Reachable : Config → Prop
  | default_unix (p : Probe) : Reachable (Config.default_unix p)
  | local_default : Reachable Config.local_default
  | new_ok (env : Env) (pkg : String) (vb qt fo be op : Bool) (c : Config)
      (ws : List Warn) : Config.new env pkg vb qt fo be op = .ok c ws → Reachable c
  | load (c : Config) (doc : List (String × TValue)) :
      Reachable c → Reachable (loadDoc c doc).1
  | set_app_package (c : Config) (s : String) :
      Reachable c → Reachable (c.set_app_package s)
  | set_verbose (c : Config) (b : Bool) : Reachable c → Reachable (c.set_verbose b)
  | set_quiet (c : Config) (b : Bool) : Reachable c → Reachable (c.set_quiet b)
  | set_force (c : Config) (b : Bool) : Reachable c → Reachable (c.set_force b)
  | set_bench (c : Config) (b : Bool) : Reachable c → Reachable (c.set_bench b)
  | set_open (c : Config) (b : Bool) : Reachable c → Reachable (c.set_open b)
  | set_threads (c : Config) (n : Nat) (h : n ≤ 255) :
      Reachable c → Reachable (c.set_threads n)

/-- The same reachable set, but with `set_threads` restricted to arguments in
[1,255] (the `u8` bound plus positivity). -/
inductive ReachableChecked : Config → Prop
  | default_unix (p : Probe) : ReachableChecked (Config.default_unix p)
  | local_default : ReachableChecked Config.local_default
  | new_ok (env : Env) (pkg : String) (vb qt fo be op : Bool) (c : Config)
      (ws : List Warn) : Config.new env pkg vb qt fo be op = .ok c ws →
      ReachableChecked c
  | load (c : Config) (doc : List (String × TValue)) :
      ReachableChecked c → ReachableChecked (loadDoc c doc).1
  | set_app_package (c : Config) (s : String) :
      ReachableChecked c → ReachableChecked (c.set_app_package s)
  | set_verbose (c : Config) (b : Bool) :
      ReachableChecked c → ReachableChecked (c.set_verbose b)
  | set_quiet (c : Config) (b : Bool) :
      ReachableChecked c → ReachableChecked (c.set_quiet b)
  | set_force (c : Config) (b : Bool) :
      ReachableChecked c → ReachableChecked (c.set_force b)
  | set_bench (c : Config) (b : Bool) :
      ReachableChecked c → ReachableChecked (c.set_bench b)
  | set_open (c : Config) (b : Bool) :
      ReachableChecked c → ReachableChecked (c.set_open b)
  | set_threads (c : Config) (n : Nat) (h1 : 1 ≤ n) (h2 : n ≤ 255) :
      ReachableChecked c → ReachableChecked (c.set_threads n)

/-- All `Config` fields except the permission data (`unknown_permission` and
`permissions`), bundled for frame reasoning about the permissions-array
loop. -/
def frameData (c : Config) :
    String × Bool × Bool × Bool × Bool × Bool × Nat × String × String × String ×
    String × String × String × String × String × String × List String :=
  (c.app_package, c.verbose, c.quiet, c.force, c.bench, c.openFlag, c.threads,
   c.downloads_folder, c.dist_folder, c.results_folder, c.apktool_file,
   c.dex2jar_folder, c.jd_cmd_file, c.rules_json, c.templates_folder,
   c.template, c.loaded_files)

/-- The fields `load_from_file` can never touch: package name, the five
invocation booleans, and the loaded-files sequence. -/
def cliData (c : Config) :
    String × Bool × Bool × Bool × Bool × Bool × List String :=
  (c.app_package, c.verbose, c.quiet, c.force, c.bench, c.openFlag, c.loaded_files)

theorem permStep_ok_frameData {c c2 : Config} {v : TValue}
    (h : permStep c v = .ok c2) : frameData c2 = frameData c := by
  unfold permStep at h
  repeat' split at h
  all_goals first
    | (injection h with h2; subst h2; rfl)
    | exact Except.noConfusion h

theorem processPerms_frameData (l : List TValue) : ∀ c : Config,
    frameData (processPerms c l).1 = frameData c := by
  induction l with
  | nil => intro c; rfl
  | cons v rest ih =>
    intro c
    simp only [processPerms]
    cases hs : permStep c v with
    | error w => rfl
    | ok c2 => exact (ih c2).trans (permStep_ok_frameData hs)

theorem cliData_of_frameData {a b : Config} (h : frameData a = frameData b) :
    cliData a = cliData b := by
  simp only [frameData, Prod.mk.injEq] at h
  obtain ⟨h1, h2, h3, h4, h5, h6, h7, h8, h9, h10, h11, h12, h13, h14, h15, h16, h17⟩ := h
  simp [cliData, h1, h2, h3, h4, h5, h6, h17]

theorem armThreads_inv (c : Config) (v : TValue) :
    cliData (armThreads c v).1 = cliData c ∧
    (armThreads c v).1.permissions = c.permissions ∧
    (1 ≤ c.threads → c.threads ≤ 255 →
      1 ≤ (armThreads c v).1.threads ∧ (armThreads c v).1.threads ≤ 255) := by
  cases v
  case int n =>
    by_cases hn : 1 ≤ n ∧ n ≤ 255
    · have he : armThreads c (.int n) = ({ c with threads := n.toNat }, []) := by
        simp [armThreads, hn]
      rw [he]
      exact ⟨rfl, rfl, fun _ _ =>
        ⟨show 1 ≤ n.toNat by omega, show n.toNat ≤ 255 by omega⟩⟩
    · have he : armThreads c (.int n) = (c, [.threads]) := by
        simp [armThreads, hn]
      rw [he]
      exact ⟨rfl, rfl, fun h1 h2 => ⟨h1, h2⟩⟩
  all_goals exact ⟨rfl, rfl, fun h1 h2 => ⟨h1, h2⟩⟩

theorem armDownloadsFolder_inv (c : Config) (v : TValue) :
    cliData (armDownloadsFolder c v).1 = cliData c ∧
    (armDownloadsFolder c v).1.threads = c.threads ∧
    (armDownloadsFolder c v).1.permissions = c.permissions := by
  cases v
  all_goals exact ⟨rfl, rfl, rfl⟩

theorem armDistFolder_inv (c : Config) (v : TValue) :
    cliData (armDistFolder c v).1 = cliData c ∧
    (armDistFolder c v).1.threads = c.threads ∧
    (armDistFolder c v).1.permissions = c.permissions := by
  cases v
  all_goals exact ⟨rfl, rfl, rfl⟩

theorem armResultsFolder_inv (c : Config) (v : TValue) :
    cliData (armResultsFolder c v).1 = cliData c ∧
    (armResultsFolder c v).1.threads = c.threads ∧
    (armResultsFolder c v).1.permissions = c.permissions := by
  cases v
  all_goals exact ⟨rfl, rfl, rfl⟩

theorem armApktoolFile_inv (c : Config) (v : TValue) :
    cliData (armApktoolFile c v).1 = cliData c ∧
    (armApktoolFile c v).1.threads = c.threads ∧
    (armApktoolFile c v).1.permissions = c.permissions := by
  cases v
  case str s =>
    by_cases hs : extension s = some "jar"
    · have he : armApktoolFile c (.str s) = ({ c with apktool_file := s }, []) := by
        simp [armApktoolFile, hs]
      rw [he]
      exact ⟨rfl, rfl, rfl⟩
    · have he : armApktoolFile c (.str s) = (c, [.apktool_not_jar]) := by
        simp [armApktoolFile, hs]
      rw [he]
      exact ⟨rfl, rfl, rfl⟩
  all_goals exact ⟨rfl, rfl, rfl⟩

theorem armDex2jarFolder_inv (c : Config) (v : TValue) :
    cliData (armDex2jarFolder c v).1 = cliData c ∧
    (armDex2jarFolder c v).1.threads = c.threads ∧
    (armDex2jarFolder c v).1.permissions = c.permissions := by
  cases v
  all_goals exact ⟨rfl, rfl, rfl⟩

theorem armJdCmdFile_inv (c : Config) (v : TValue) :
    cliData (armJdCmdFile c v).1 = cliData c ∧
    (armJdCmdFile c v).1.threads = c.threads ∧
    (armJdCmdFile c v).1.permissions = c.permissions := by
  cases v
  case str s =>
    by_cases hs : extension s = some "jar"
    · have he : armJdCmdFile c (.str s) = ({ c with jd_cmd_file := s }, []) := by
        simp [armJdCmdFile, hs]
      rw [he]
      exact ⟨rfl, rfl, rfl⟩
    · have he : armJdCmdFile c (.str s) = (c, [.jd_cmd_not_jar]) := by
        simp [armJdCmdFile, hs]
      rw [he]
      exact ⟨rfl, rfl, rfl⟩
  all_goals exact ⟨rfl, rfl, rfl⟩

theorem armTemplatesFolder_inv (c : Config) (v : TValue) :
    cliData (armTemplatesFolder c v).1 = cliData c ∧
    (armTemplatesFolder c v).1.threads = c.threads ∧
    (armTemplatesFolder c v).1.permissions = c.permissions := by
  cases v
  all_goals exact ⟨rfl, rfl, rfl⟩

theorem armTemplate_inv (c : Config) (v : TValue) :
    cliData (armTemplate c v).1 = cliData c ∧
    (armTemplate c v).1.threads = c.threads ∧
    (armTemplate c v).1.permissions = c.permissions := by
  cases v
  all_goals exact ⟨rfl, rfl, rfl⟩

theorem armRulesJson_inv (c : Config) (v : TValue) :
    cliData (armRulesJson c v).1 = cliData c ∧
    (armRulesJson c v).1.threads = c.threads ∧
    (armRulesJson c v).1.permissions = c.permissions := by
  cases v
  case str s =>
    by_cases hs : extension s = some "json"
    · have he : armRulesJson c (.str s) = ({ c with rules_json := s }, []) := by
        simp [armRulesJson, hs]
      rw [he]
      exact ⟨rfl, rfl, rfl⟩
    · have he : armRulesJson c (.str s) = (c, [.rules_json_not_json]) := by
        simp [armRulesJson, hs]
      rw [he]
      exact ⟨rfl, rfl, rfl⟩
  all_goals exact ⟨rfl, rfl, rfl⟩

theorem armPermissions_inv (c : Config) (v : TValue) :
    cliData (armPermissions c v).1 = cliData c ∧
    (armPermissions c v).1.threads = c.threads := by
  cases v
  case arr p =>
    have hf := processPerms_frameData p c
    have hc : cliData (processPerms c p).1 = cliData c := cliData_of_frameData hf
    simp only [frameData, Prod.mk.injEq] at hf
    exact ⟨hc, hf.2.2.2.2.2.2.1⟩
  all_goals exact ⟨rfl, rfl⟩

theorem processEntry_inv (c : Config) (k : String) (v : TValue) :
    cliData (processEntry c k v).1 = cliData c ∧
    (1 ≤ c.threads → c.threads ≤ 255 →
      1 ≤ (processEntry c k v).1.threads ∧ (processEntry c k v).1.threads ≤ 255) := by
  unfold processEntry
  by_cases h1 : k = "threads"
  · rw [if_pos h1]
    have ha := armThreads_inv c v
    exact ⟨ha.1, ha.2.2⟩
  rw [if_neg h1]
  by_cases h2 : k = "downloads_folder"
  · rw [if_pos h2]
    have ha := armDownloadsFolder_inv c v
    exact ⟨ha.1, fun hb hc => by rw [ha.2.1]; exact ⟨hb, hc⟩⟩
  rw [if_neg h2]
  by_cases h3 : k = "dist_folder"
  · rw [if_pos h3]
    have ha := armDistFolder_inv c v
    exact ⟨ha.1, fun hb hc => by rw [ha.2.1]; exact ⟨hb, hc⟩⟩
  rw [if_neg h3]
  by_cases h4 : k = "results_folder"
  · rw [if_pos h4]
    have ha := armResultsFolder_inv c v
    exact ⟨ha.1, fun hb hc => by rw [ha.2.1]; exact ⟨hb, hc⟩⟩
  rw [if_neg h4]
  by_cases h5 : k = "apktool_file"
  · rw [if_pos h5]
    have ha := armApktoolFile_inv c v
    exact ⟨ha.1, fun hb hc => by rw [ha.2.1]; exact ⟨hb, hc⟩⟩
  rw [if_neg h5]
  by_cases h6 : k = "dex2jar_folder"
  · rw [if_pos h6]
    have ha := armDex2jarFolder_inv c v
    exact ⟨ha.1, fun hb hc => by rw [ha.2.1]; exact ⟨hb, hc⟩⟩
  rw [if_neg h6]
  by_cases h7 : k = "jd_cmd_file"
  · rw [if_pos h7]
    have ha := armJdCmdFile_inv c v
    exact ⟨ha.1, fun hb hc => by rw [ha.2.1]; exact ⟨hb, hc⟩⟩
  rw [if_neg h7]
  by_cases h8 : k = "templates_folder"
  · rw [if_pos h8]
    have ha := armTemplatesFolder_inv c v
    exact ⟨ha.1, fun hb hc => by rw [ha.2.1]; exact ⟨hb, hc⟩⟩
  rw [if_neg h8]
  by_cases h9 : k = "template"
  · rw [if_pos h9]
    have ha := armTemplate_inv c v
    exact ⟨ha.1, fun hb hc => by rw [ha.2.1]; exact ⟨hb, hc⟩⟩
  rw [if_neg h9]
  by_cases h10 : k = "rules_json"
  · rw [if_pos h10]
    have ha := armRulesJson_inv c v
    exact ⟨ha.1, fun hb hc => by rw [ha.2.1]; exact ⟨hb, hc⟩⟩
  rw [if_neg h10]
  by_cases h11 : k = "permissions"
  · rw [if_pos h11]
    have ha := armPermissions_inv c v
    exact ⟨ha.1, fun hb hc => by rw [ha.2]; exact ⟨hb, hc⟩⟩
  rw [if_neg h11]
  exact ⟨rfl, fun hb hc => ⟨hb, hc⟩⟩

theorem processEntry_cliData (c : Config) (k : String) (v : TValue) :
    cliData (processEntry c k v).1 = cliData c :=
  (processEntry_inv c k v).1

theorem loadDoc_cliData (doc : List (String × TValue)) : ∀ c : Config,
    cliData (loadDoc c doc).1 = cliData c := by
  induction doc with
  | nil => intro c; rfl
  | cons kv rest ih =>
    intro c
    exact (ih (processEntry c kv.1 kv.2).1).trans (processEntry_cliData c kv.1 kv.2)

theorem processEntry_threads_bound {c : Config} (k : String) (v : TValue)
    (h1 : 1 ≤ c.threads) (h2 : c.threads ≤ 255) :
    1 ≤ (processEntry c k v).1.threads ∧ (processEntry c k v).1.threads ≤ 255 :=
  (processEntry_inv c k v).2 h1 h2

theorem loadDoc_threads_bound (doc : List (String × TValue)) : ∀ c : Config,
    1 ≤ c.threads → c.threads ≤ 255 →
    1 ≤ (loadDoc c doc).1.threads ∧ (loadDoc c doc).1.threads ≤ 255 := by
  induction doc with
  | nil => intro c h1 h2; exact ⟨h1, h2⟩
  | cons kv rest ih =>
    intro c h1 h2
    have h3 := processEntry_threads_bound (c := c) kv.1 kv.2 h1 h2
    exact ih (processEntry c kv.1 kv.2).1 h3.1 h3.2

theorem default_unix_threads (p : Probe) : (Config.default_unix p).threads = 2 := by
  unfold Config.default_unix
  repeat' split
  all_goals rfl

theorem default_unix_loaded_files (p : Probe) :
    (Config.default_unix p).loaded_files = [] := by
  unfold Config.default_unix
  repeat' split
  all_goals rfl

theorem base_threads (p : Probe) (pkg : String) (vb qt fo be op : Bool) :
    (Config.base p pkg vb qt fo be op).threads = 2 :=
  default_unix_threads p

theorem base_loaded_files (p : Probe) (pkg : String) (vb qt fo be op : Bool) :
    (Config.base p pkg vb qt fo be op).loaded_files = [] :=
  default_unix_loaded_files p

theorem loadStage_inv {p : Bool} {par : Option (List (String × TValue))}
    {path : String} {c c2 : Config} {w : List Warn}
    (h : loadStage p par path c = Sum.inr (c2, w)) :
    1 ≤ c.threads → c.threads ≤ 255 → 1 ≤ c2.threads ∧ c2.threads ≤ 255 := by
  unfold loadStage at h
  cases p with
  | false =>
    rw [if_neg Bool.false_ne_true] at h
    injection h with h2
    injection h2 with ha hb
    subst ha
    exact fun h1 h2 => ⟨h1, h2⟩
  | true =>
    rw [if_pos rfl] at h
    cases par with
    | none => simp [Config.load_from_file] at h
    | some doc =>
      simp only [Config.load_from_file] at h
      injection h with h2
      injection h2 with ha hb
      subst ha
      exact fun h1 h2 => loadDoc_threads_bound doc c h1 h2

theorem config_new_inv {env : Env} {pkg : String} {vb qt fo be op : Bool}
    {c : Config} {ws : List Warn}
    (h : Config.new env pkg vb qt fo be op = NewResult.ok c ws) :
    1 ≤ c.threads ∧ c.threads ≤ 255 := by
  unfold Config.new at h
  split at h
  · exact NewResult.noConfusion h
  rename_i c1 w1 heq1
  split at h
  · exact NewResult.noConfusion h
  rename_i c2 w2 heq2
  injection h with h1 h2
  subst h1
  have i1 := loadStage_inv heq1
  have i2 := loadStage_inv heq2
  have bt : 1 ≤ (Config.base env.probe pkg vb qt fo be op).threads ∧
      (Config.base env.probe pkg vb qt fo be op).threads ≤ 255 := by
    rw [base_threads]
    omega
  have m1 := i1 bt.1 bt.2
  exact i2 m1.1 m1.2

/-- The successful-prefix run of the `for cfg in p` loop: `some c2` when every
element completes its iteration (no `break`), yielding the accumulated
config. -/
def contAll : Config → List TValue → Option Config
  | c, [] => some c
  | c, v :: rest =>
    match permStep c v with
    | .ok c2 => contAll c2 rest
    | .error _ => none

theorem loadDoc_loaded_files (doc : List (String × TValue)) (c : Config) :
    (loadDoc c doc).1.loaded_files = c.loaded_files := by
  have h := loadDoc_cliData doc c
  simp only [cliData, Prod.mk.injEq] at h
  exact h.2.2.2.2.2.2

/-- C1: code-bug evidence.  The claim (and the spec's load-bearing
"first-inserted wins" invariant) follows the manual permission-only
`PartialEq`/`PartialOrd` impls, but `BTreeSet` deduplicates by `Ord::cmp`,
which `#[derive(Ord)]` generates over all four fields: a single load whose
permissions array holds two valid entries for the internet permission with
different criticity/label/description produces a reachable Config whose set
holds BOTH rules — rules that are equal under the manual `PartialEq` and
`PartialOrd` yet distinct under the derived comparison — refuting both
"at most one rule per distinct Permission" and the silent-no-op insert. -/
theorem claim1_duplicate_permission_rules :
    (loadDoc Config.local_default [("permissions", TValue.arr
      [TValue.table [("criticity", TValue.str "warning"),
        ("description", TValue.str "b"), ("label", TValue.str "a"),
        ("name", TValue.str "android.permission.INTERNET")],
       TValue.table [("criticity", TValue.str "high"),
        ("description", TValue.str "y"), ("label", TValue.str "x"),
        ("name", TValue.str "android.permission.INTERNET")]])]).1.permissions =
      [PermissionConfig.mk Permission.androidPermissionInternet
        Criticity.warning "a" "b",
       PermissionConfig.mk Permission.androidPermissionInternet
        Criticity.high "x" "y"] ∧
    (loadDoc Config.local_default [("permissions", TValue.arr
      [TValue.table [("criticity", TValue.str "warning"),
        ("description", TValue.str "b"), ("label", TValue.str "a"),
        ("name", TValue.str "android.permission.INTERNET")],
       TValue.table [("criticity", TValue.str "high"),
        ("description", TValue.str "y"), ("label", TValue.str "x"),
        ("name", TValue.str "android.permission.INTERNET")]])]).2 = [] ∧
    (PermissionConfig.mk Permission.androidPermissionInternet
      Criticity.warning "a" "b").permission =
      (PermissionConfig.mk Permission.androidPermissionInternet
        Criticity.high "x" "y").permission ∧
    PermissionConfig.eq
      (PermissionConfig.mk Permission.androidPermissionInternet
        Criticity.warning "a" "b")
      (PermissionConfig.mk Permission.androidPermissionInternet
        Criticity.high "x" "y") = true ∧
    PermissionConfig.partial_cmp
      (PermissionConfig.mk Permission.androidPermissionInternet
        Criticity.warning "a" "b")
      (PermissionConfig.mk Permission.androidPermissionInternet
        Criticity.high "x" "y") = some Ordering.eq ∧
    PermissionConfig.cmp
      (PermissionConfig.mk Permission.androidPermissionInternet
        Criticity.warning "a" "b")
      (PermissionConfig.mk Permission.androidPermissionInternet
        Criticity.high "x" "y") ≠ Ordering.eq ∧
    ¬ (∀ (s : List PermissionConfig) (x : PermissionConfig),
        s.Pairwise (fun a b => PermissionConfig.cmp a b = Ordering.lt) →
        (∃ y ∈ s, y.permission = x.permission) → insertPC s x = s) ∧
    ¬ (∀ c : Config, Reachable c →
        c.permissions.Pairwise (fun a b => a.permission ≠ b.permission)) := by
  refine ⟨rfl, rfl, rfl, rfl, rfl, by decide, ?_, ?_⟩
  · intro hall
    have h := hall
      [PermissionConfig.mk Permission.androidPermissionInternet
        Criticity.warning "a" "b"]
      (PermissionConfig.mk Permission.androidPermissionInternet
        Criticity.high "x" "y")
      (by simp)
      ⟨PermissionConfig.mk Permission.androidPermissionInternet
        Criticity.warning "a" "b", by simp, rfl⟩
    exact absurd h (by decide)
  · intro hall
    have h := hall _ (Reachable.load Config.local_default
      [("permissions", TValue.arr
        [TValue.table [("criticity", TValue.str "warning"),
          ("description", TValue.str "b"), ("label", TValue.str "a"),
          ("name", TValue.str "android.permission.INTERNET")],
         TValue.table [("criticity", TValue.str "high"),
          ("description", TValue.str "y"), ("label", TValue.str "x"),
          ("name", TValue.str "android.permission.INTERNET")]])]
      Reachable.local_default)
    exact absurd h (by decide)

/-- C3 counterexample: `set_threads` is public and accepts any `u8`, so the
Config obtained from the defaults by `set_threads 0` is reachable yet has
thread count 0, outside [1,255]; the claim as stated is false. -/
theorem claim3_counterexample :
    Reachable (Config.local_default.set_threads 0) ∧
    (Config.local_default.set_threads 0).threads = 0 ∧
    ¬ (∀ c : Config, Reachable c → 1 ≤ c.threads ∧ c.threads ≤ 255) := by
  refine ⟨Reachable.set_threads _ 0 (by omega) Reachable.local_default, rfl, ?_⟩
  intro hall
  have h := hall _ (Reachable.set_threads _ 0 (by omega) Reachable.local_default)
  have h0 : (Config.local_default.set_threads 0).threads = 0 := rfl
  rw [h0] at h
  omega

/-- C3 amended: for every Config reachable through construction (`new` or
`Default`), any sequence of document loads, and the public setters where
`set_threads` is only given values in [1,255], the thread count lies in
[1,255]; `set_threads` itself accepts any `u8`, including 0, which breaks
the range. -/
theorem claim3_threads_range {c : Config} (h : ReachableChecked c) :
    1 ≤ c.threads ∧ c.threads ≤ 255 := by
  induction h with
  | default_unix p => rw [default_unix_threads]; omega
  | local_default =>
    have h0 : Config.local_default.threads = 2 := rfl
    rw [h0]
    omega
  | new_ok env pkg vb qt fo be op c ws hnew => exact config_new_inv hnew
  | load c doc hr ih => exact loadDoc_threads_bound doc c ih.1 ih.2
  | set_app_package c s hr ih => exact ih
  | set_verbose c b hr ih => exact ih
  | set_quiet c b hr ih => exact ih
  | set_force c b hr ih => exact ih
  | set_bench c b hr ih => exact ih
  | set_open c b hr ih => exact ih
  | set_threads c n h1 h2 hr ih => exact ⟨h1, h2⟩

/-- C3 witness for the amended theorem, at the built-in default Config. -/
theorem claim3_threads_range_witness :
    1 ≤ Config.local_default.threads ∧ Config.local_default.threads ≤ 255 :=
  claim3_threads_range ReachableChecked.local_default

/-- C8: a document whose contents fail to parse makes `load_from_file`
terminate the process with the dedicated parse-error exit code, with the
Config exactly as it was — no key merged. -/
theorem claim8_parse_error_exit (c : Config) :
    Config.load_from_file c none = LoadResult.exited ExitCode.parse_error c :=
  rfl

/-- C9: with no configuration files present and no system-wide probe paths
existing, `Config::new` returns exactly the built-in local defaults: threads
2, downloads/dist/results folders, template name `super`, rules file
`rules.json`, empty permission set, empty loaded-files sequence, all five
booleans false and an empty package name. -/
theorem claim9_defaults (mac : Bool) (ep lp : Option (List (String × TValue))) :
    Config.new ⟨⟨false, false, mac⟩, false, ep, false, lp⟩ "" false false false
        false false = NewResult.ok Config.local_default [] ∧
    Config.local_default.threads = 2 ∧
    Config.local_default.downloads_folder = "downloads" ∧
    Config.local_default.dist_folder = "dist" ∧
    Config.local_default.results_folder = "results" ∧
    Config.local_default.template = "super" ∧
    Config.local_default.rules_json = "rules.json" ∧
    Config.local_default.permissions = [] ∧
    Config.local_default.loaded_files = [] ∧
    Config.local_default.verbose = false ∧
    Config.local_default.quiet = false ∧
    Config.local_default.force = false ∧
    Config.local_default.bench = false ∧
    Config.local_default.openFlag = false ∧
    Config.local_default.app_package = "" :=
  ⟨rfl, rfl, rfl, rfl, rfl, rfl, rfl, rfl, rfl, rfl, rfl, rfl, rfl, rfl, rfl⟩

/-- C10: a document load never changes the package name, the five invocation
booleans, or the loaded-files sequence. -/
theorem claim10_load_frame (c : Config) (doc : List (String × TValue)) :
    (loadDoc c doc).1.app_package = c.app_package ∧
    (loadDoc c doc).1.verbose = c.verbose ∧
    (loadDoc c doc).1.quiet = c.quiet ∧
    (loadDoc c doc).1.force = c.force ∧
    (loadDoc c doc).1.bench = c.bench ∧
    (loadDoc c doc).1.openFlag = c.openFlag ∧
    (loadDoc c doc).1.loaded_files = c.loaded_files := by
  have h := loadDoc_cliData doc c
  simp only [cliData, Prod.mk.injEq] at h
  exact ⟨h.1, h.2.1, h.2.2.1, h.2.2.2.1, h.2.2.2.2.1, h.2.2.2.2.2.1, h.2.2.2.2.2.2⟩

theorem ite_nil_eq_nil {b : Bool} {m : String} :
    ((if b = true then ([] : List String) else [m]) = []) ↔ b = true := by
  cases b <;> simp

/-- C2 counterexample: `get_errors` also checks the templates folder itself,
a predicate `check` does not test.  With the default Config and a filesystem
on which every path except `templates` exists (the template path
`templates/super` itself existing), `check` returns true while `get_errors`
returns a non-empty message list, refuting both "same predicate set" and
"empty sequence iff check() returns true". -/
theorem claim2_counterexample :
    Config.check (fun p => p != "templates") Config.local_default = true ∧
    Config.get_errors (fun p => p != "templates") Config.local_default ≠ [] ∧
    ¬ (∀ (c : Config) (fs : String → Bool),
        Config.get_errors fs c = [] ↔ Config.check fs c = true) := by
  refine ⟨by decide, by decide, ?_⟩
  intro hall
  have h := (hall Config.local_default (fun p => p != "templates")).mpr (by decide)
  exact absurd h (by decide)

/-- C2 amended: `check` is true iff the seven required paths exist, and
`get_errors` emits exactly one message per missing item of an
eight-predicate set — the seven of `check` plus the templates folder itself —
evaluated independently; consequently `get_errors` is empty iff `check` is
true and the templates folder also exists. -/
theorem claim2_check_and_errors (c : Config) (fs : String → Bool) :
    (Config.check fs c = true ↔
      (fs c.downloads_folder = true ∧ fs c.get_apk_file = true ∧
       fs c.apktool_file = true ∧ fs c.dex2jar_folder = true ∧
       fs c.jd_cmd_file = true ∧ fs c.get_template_path = true ∧
       fs c.rules_json = true)) ∧
    ((Config.get_errors fs c).length =
      (if fs c.downloads_folder then 0 else 1) +
      ((if fs c.get_apk_file then 0 else 1) +
       ((if fs c.apktool_file then 0 else 1) +
        ((if fs c.dex2jar_folder then 0 else 1) +
         ((if fs c.jd_cmd_file then 0 else 1) +
          ((if fs c.templates_folder then 0 else 1) +
           ((if fs c.get_template_path then 0 else 1) +
            (if fs c.rules_json then 0 else 1)))))))) ∧
    (Config.get_errors fs c = [] ↔
      (Config.check fs c = true ∧ fs c.templates_folder = true)) := by
  refine ⟨?_, ?_, ?_⟩
  · simp [Config.check, Bool.and_eq_true, and_assoc]
  · simp only [Config.get_errors, List.length_append, apply_ite List.length,
      List.length_nil, List.length_cons, Nat.zero_add]
    omega
  · simp only [Config.get_errors, List.append_eq_nil, ite_nil_eq_nil,
      Config.check, Bool.and_eq_true]
    tauto

/-- C5: on a single load, the given two-element permissions array sets the
unknown-permission default to (Low, "d") and inserts exactly one rule for
the internet permission with criticity Warning, label "L" and description
"d2", with no warning emitted. -/
theorem claim5_unknown_then_internet :
    (let r := processEntry Config.local_default "permissions" (TValue.arr
      [TValue.table [("criticity", TValue.str "low"),
        ("description", TValue.str "d"), ("name", TValue.str "unknown")],
       TValue.table [("criticity", TValue.str "warning"),
        ("description", TValue.str "d2"), ("label", TValue.str "L"),
        ("name", TValue.str "android.permission.INTERNET")]])
     r.1.unknown_permission = (Criticity.low, "d") ∧
     r.1.permissions = [PermissionConfig.mk Permission.androidPermissionInternet
       Criticity.warning "L" "d2"] ∧
     r.2 = []) := by
  exact ⟨rfl, rfl, rfl⟩

/-- C4: when every element of a prefix of the permissions array completes
its iteration (yielding config `c2`) and the next element makes the loop
break with warning `w` (non-table, missing or mis-typed field, bad
criticity keyword, wrong key count, unknown name, or missing label), the
whole scan stops there: the result is exactly `c2` — the valid prefix took
effect — with the single warning `w`, and the remaining elements have no
effect whatsoever. -/
theorem claim4_array_abort {c c2 : Config} (pre : List TValue) (v : TValue)
    (w : Warn) (rest : List TValue)
    (hpre : contAll c pre = some c2) (hv : permStep c2 v = Except.error w) :
    processPerms c (pre ++ v :: rest) = (c2, [w]) := by
  induction pre generalizing c with
  | nil =>
    injection hpre with h
    subst h
    simp only [List.nil_append, processPerms, hv]
  | cons v0 tl ih =>
    simp only [contAll] at hpre
    cases hp : permStep c v0 with
    | error w0 =>
      rw [hp] at hpre
      exact Option.noConfusion hpre
    | ok c3 =>
      rw [hp] at hpre
      simp only [List.cons_append, processPerms, hp]
      exact ih hpre

/-- C4 witness: a valid unknown-entry prefix takes effect, a named entry
with only three keys breaks the loop with the schema warning, and a further
valid element after it is ignored. -/
theorem claim4_array_abort_witness :
    contAll Config.local_default
      [TValue.table [("criticity", TValue.str "low"),
        ("description", TValue.str "d"), ("name", TValue.str "unknown")]] =
      some { Config.local_default with
             unknown_permission := (Criticity.low, "d") } ∧
    permStep { Config.local_default with
               unknown_permission := (Criticity.low, "d") }
      (TValue.table [("criticity", TValue.str "warning"),
        ("description", TValue.str "d2"),
        ("name", TValue.str "android.permission.INTERNET")]) =
      Except.error Warn.perm_format ∧
    processPerms Config.local_default
      [TValue.table [("criticity", TValue.str "low"),
        ("description", TValue.str "d"), ("name", TValue.str "unknown")],
       TValue.table [("criticity", TValue.str "warning"),
        ("description", TValue.str "d2"),
        ("name", TValue.str "android.permission.INTERNET")],
       TValue.table [("criticity", TValue.str "low"),
        ("description", TValue.str "d"), ("name", TValue.str "unknown")]] =
      ({ Config.local_default with
         unknown_permission := (Criticity.low, "d") }, [Warn.perm_format]) :=
  ⟨rfl, rfl,
   claim4_array_abort
     [TValue.table [("criticity", TValue.str "low"),
       ("description", TValue.str "d"), ("name", TValue.str "unknown")]]
     (TValue.table [("criticity", TValue.str "warning"),
       ("description", TValue.str "d2"),
       ("name", TValue.str "android.permission.INTERNET")])
     Warn.perm_format
     [TValue.table [("criticity", TValue.str "low"),
       ("description", TValue.str "d"), ("name", TValue.str "unknown")]]
     rfl rfl⟩

/-- C7: every recognized scalar key with a constraint-violating value emits
exactly one warning and leaves that field (indeed the whole Config)
unchanged — threads outside [1,255] or non-integer; apktool_file /
jd_cmd_file without a `.jar` extension; rules_json without `.json`; any
folder/template key with a non-string value — while a satisfying value
(e.g. `apktool_file = "tool.jar"`) updates the field; and a key that
produced a warning without changing the Config never stops the scan of the
remaining keys. -/
theorem claim7_scalar_key_validation :
    (∀ (c : Config) (n : Int), n < 1 ∨ 255 < n →
      processEntry c "threads" (TValue.int n) = (c, [Warn.threads])) ∧
    (∀ (c : Config) (v : TValue), (∀ n : Int, v ≠ TValue.int n) →
      processEntry c "threads" v = (c, [Warn.threads])) ∧
    (∀ (c : Config) (v : TValue), (∀ s : String, v ≠ TValue.str s) →
      processEntry c "downloads_folder" v = (c, [Warn.downloads_folder])) ∧
    (∀ (c : Config) (v : TValue), (∀ s : String, v ≠ TValue.str s) →
      processEntry c "dist_folder" v = (c, [Warn.dist_folder])) ∧
    (∀ (c : Config) (v : TValue), (∀ s : String, v ≠ TValue.str s) →
      processEntry c "results_folder" v = (c, [Warn.results_folder])) ∧
    (∀ (c : Config) (v : TValue), (∀ s : String, v ≠ TValue.str s) →
      processEntry c "dex2jar_folder" v = (c, [Warn.dex2jar_folder])) ∧
    (∀ (c : Config) (v : TValue), (∀ s : String, v ≠ TValue.str s) →
      processEntry c "templates_folder" v = (c, [Warn.templates_folder])) ∧
    (∀ (c : Config) (v : TValue), (∀ s : String, v ≠ TValue.str s) →
      processEntry c "template" v = (c, [Warn.template])) ∧
    (∀ (c : Config) (s : String), ¬ extension s = some "jar" →
      processEntry c "apktool_file" (TValue.str s) = (c, [Warn.apktool_not_jar])) ∧
    (∀ (c : Config) (s : String), ¬ extension s = some "jar" →
      processEntry c "jd_cmd_file" (TValue.str s) = (c, [Warn.jd_cmd_not_jar])) ∧
    (∀ (c : Config) (s : String), ¬ extension s = some "json" →
      processEntry c "rules_json" (TValue.str s) = (c, [Warn.rules_json_not_json])) ∧
    (∀ c : Config, processEntry c "apktool_file" (TValue.str "tool.jar") =
      ({ c with apktool_file := "tool.jar" }, [])) ∧
    (∀ (c : Config) (k : String) (v : TValue) (w : Warn)
      (rest : List (String × TValue)), processEntry c k v = (c, [w]) →
      loadDoc c ((k, v) :: rest) = ((loadDoc c rest).1, w :: (loadDoc c rest).2)) := by
  refine ⟨?_, ?_, ?_, ?_, ?_, ?_, ?_, ?_, ?_, ?_, ?_, ?_, ?_⟩
  · intro c n hn
    have h0 : processEntry c "threads" (TValue.int n) = armThreads c (TValue.int n) := rfl
    rw [h0]
    simp [armThreads, show ¬ (1 ≤ n ∧ n ≤ 255) by omega]
  · intro c v hv
    have h0 : processEntry c "threads" v = armThreads c v := rfl
    rw [h0]
    cases v
    case int n => exact absurd rfl (hv n)
    all_goals rfl
  · intro c v hv
    have h0 : processEntry c "downloads_folder" v = armDownloadsFolder c v := rfl
    rw [h0]
    cases v
    case str s => exact absurd rfl (hv s)
    all_goals rfl
  · intro c v hv
    have h0 : processEntry c "dist_folder" v = armDistFolder c v := rfl
    rw [h0]
    cases v
    case str s => exact absurd rfl (hv s)
    all_goals rfl
  · intro c v hv
    have h0 : processEntry c "results_folder" v = armResultsFolder c v := rfl
    rw [h0]
    cases v
    case str s => exact absurd rfl (hv s)
    all_goals rfl
  · intro c v hv
    have h0 : processEntry c "dex2jar_folder" v = armDex2jarFolder c v := rfl
    rw [h0]
    cases v
    case str s => exact absurd rfl (hv s)
    all_goals rfl
  · intro c v hv
    have h0 : processEntry c "templates_folder" v = armTemplatesFolder c v := rfl
    rw [h0]
    cases v
    case str s => exact absurd rfl (hv s)
    all_goals rfl
  · intro c v hv
    have h0 : processEntry c "template" v = armTemplate c v := rfl
    rw [h0]
    cases v
    case str s => exact absurd rfl (hv s)
    all_goals rfl
  · intro c s hs
    have h0 : processEntry c "apktool_file" (TValue.str s) =
        armApktoolFile c (TValue.str s) := rfl
    rw [h0]
    simp [armApktoolFile, hs]
  · intro c s hs
    have h0 : processEntry c "jd_cmd_file" (TValue.str s) =
        armJdCmdFile c (TValue.str s) := rfl
    rw [h0]
    simp [armJdCmdFile, hs]
  · intro c s hs
    have h0 : processEntry c "rules_json" (TValue.str s) =
        armRulesJson c (TValue.str s) := rfl
    rw [h0]
    simp [armRulesJson, hs]
  · intro c
    rfl
  · intro c k v w rest h
    simp only [loadDoc]
    rw [h]
    simp

/-- C7 witness: threads=500 and a `.txt` apktool path are rejected with one
warning each and no state change, `tool.jar` is accepted, and the rejected
key does not stop the scan of the rest of the document. -/
theorem claim7_scalar_key_validation_witness :
    processEntry Config.local_default "threads" (TValue.int 500) =
      (Config.local_default, [Warn.threads]) ∧
    processEntry Config.local_default "apktool_file" (TValue.str "tool.txt") =
      (Config.local_default, [Warn.apktool_not_jar]) ∧
    processEntry Config.local_default "apktool_file" (TValue.str "tool.jar") =
      ({ Config.local_default with apktool_file := "tool.jar" }, []) ∧
    loadDoc Config.local_default
        [("threads", TValue.int 500), ("template", TValue.str "x")] =
      ((loadDoc Config.local_default [("template", TValue.str "x")]).1,
       Warn.threads ::
         (loadDoc Config.local_default [("template", TValue.str "x")]).2) :=
  ⟨claim7_scalar_key_validation.1 Config.local_default 500 (by omega),
   claim7_scalar_key_validation.2.2.2.2.2.2.2.2.1 Config.local_default "tool.txt"
     (by decide),
   claim7_scalar_key_validation.2.2.2.2.2.2.2.2.2.2.2.1 Config.local_default,
   claim7_scalar_key_validation.2.2.2.2.2.2.2.2.2.2.2.2 Config.local_default
     "threads" (TValue.int 500) Warn.threads [("template", TValue.str "x")]
     (claim7_scalar_key_validation.1 Config.local_default 500 (by omega))⟩

/-- C6: code-bug evidence for the permissions part.  On a concrete unix
environment where both `/etc/config.toml` and `./config.toml` exist, each
declaring one rule for the internet permission with different
criticity/label/description, resolution loads them in that order and records
both paths — but the second file's colliding rule is NOT dropped: the
`BTreeSet` keyed by the derived full-field `Ord` retains both rules, so the
claimed first-writer-wins behaviour for permissions is false of the
program. -/
theorem claim6_colliding_rule_not_dropped :
    Config.new ⟨⟨false, false, false⟩, true,
        some [("permissions", TValue.arr
          [TValue.table [("criticity", TValue.str "warning"),
            ("description", TValue.str "b"), ("label", TValue.str "a"),
            ("name", TValue.str "android.permission.INTERNET")]])], true,
        some [("permissions", TValue.arr
          [TValue.table [("criticity", TValue.str "high"),
            ("description", TValue.str "y"), ("label", TValue.str "x"),
            ("name", TValue.str "android.permission.INTERNET")]])]⟩
        "" false false false false false =
      NewResult.ok
        { Config.local_default with
          permissions :=
            [PermissionConfig.mk Permission.androidPermissionInternet
              Criticity.warning "a" "b",
             PermissionConfig.mk Permission.androidPermissionInternet
              Criticity.high "x" "y"]
          loaded_files := ["/etc/config.toml", "./config.toml"] } [] ∧
    (PermissionConfig.mk Permission.androidPermissionInternet
      Criticity.warning "a" "b").permission =
      (PermissionConfig.mk Permission.androidPermissionInternet
        Criticity.high "x" "y").permission ∧
    insertPC [PermissionConfig.mk Permission.androidPermissionInternet
        Criticity.warning "a" "b"]
      (PermissionConfig.mk Permission.androidPermissionInternet
        Criticity.high "x" "y") =
      [PermissionConfig.mk Permission.androidPermissionInternet
        Criticity.warning "a" "b",
       PermissionConfig.mk Permission.androidPermissionInternet
        Criticity.high "x" "y"] ∧
    ¬ (∀ (s : List PermissionConfig) (x y : PermissionConfig),
        s.Pairwise (fun a b => PermissionConfig.cmp a b = Ordering.lt) →
        y.permission = x.permission →
        insertPC (insertPC s x) y = insertPC s x) := by
  refine ⟨rfl, rfl, rfl, ?_⟩
  intro hall
  have h := hall []
    (PermissionConfig.mk Permission.androidPermissionInternet
      Criticity.warning "a" "b")
    (PermissionConfig.mk Permission.androidPermissionInternet
      Criticity.high "x" "y")
    List.Pairwise.nil rfl
  exact absurd h (by decide)

end Super
